import Mathlib

/-!
# Verification of the TNM046 lab mesh generator and TGA image decoder

Shallow embedding of the mesh-generation component (`TriangleSoup.cpp`)
and the uncompressed-TGA image decoder (`Texture.cpp`) of the
`TNM046-theLab1` repository, together with proofs settling the spec
claims about them.

Modelling conventions:
* C `int` values are modelled as unbounded `Int` (signed overflow in C is
  undefined; the idealised-integer model is used for the mesh code where
  no claim concerns wrap-around).  The image decoder's `GLuint` size
  computation, where 32-bit wrap-around is the point of a claim, carries
  an explicit `% 2^32`.
* `GLfloat` vertex data is modelled over `ℚ`; the transcendental helpers
  used by the sphere generator (`sin`, `cos`, `M_PI`) are passed in as
  parameters, since no claim depends on their values.
* `std::vector<T>` is a `List`; `resize` keeps a prefix and zero-fills,
  `operator[]` assignment is `List.set` (writes in the source are proved
  in range, where a claim needs it, via the ghost out-of-bounds flag of
  the OBJ reader).
* File I/O is abstracted: a file is `Option` of its parsed content
  (`none` = the file could not be opened).
-/

namespace TNM046

/-! ## Definitions -/

/-- Model of `std::vector::resize(n)` with value-initialised fill: keeps the first
`n` elements and pads with `d` up to length `n`. -/
def resizeList {α : Type} (l : List α) (n : Nat) (d : α) : List α :=
  l.take n ++ List.replicate (n - l.length) d

/-- A run of consecutive element assignments `l[b] = v₀; l[b+1] = v₁; …`,
as performed by the element-copy loops in `TriangleSoup.cpp`. -/
def writeBlock {α : Type} (l : List α) (b : Nat) : List α → List α
  | [] => l
  | v :: vs => writeBlock (l.set b v) (b + 1) vs

structure TriangleSoup where
  vertexarray : List ℚ
  indexarray : List Int
  nverts : Int
  ntris : Int
  deriving Repr, DecidableEq

/-- The constructor `TriangleSoup()`: all zeros / empty arrays. -/
def emptySoup : TriangleSoup := ⟨[], [], 0, 0⟩

/-- Model of `TriangleSoup::clean()`: clears both arrays and zeroes the counts
(the GL-resource deletions have no model-visible effect). -/
def clean (_s : TriangleSoup) : TriangleSoup := ⟨[], [], 0, 0⟩

/-- The constant vertex data of `createTriangle` (8 floats per vertex:
position xyz, normal xyz, texcoord st). -/
def triangleVertexData : List ℚ :=
  [-1, -1, 0, 0, 0, 1, 0, 0,
    1, -1, 0, 0, 0, 1, 1, 0,
    0,  1, 0, 0, 0, 1, 1/2, 1]

/-- The constant index data of `createTriangle`. -/
def triangleIndexData : List Int := [0, 1, 2]

/-- Model of `TriangleSoup::createTriangle()`: sets `nverts_ = 3`, `ntris_ = 1`,
resizes both arrays and copies the constant data element by element. -/
def createTriangle (s : TriangleSoup) : TriangleSoup :=
  let nverts : Int := 3
  let ntris : Int := 1
  let va := writeBlock (resizeList s.vertexarray (8 * 3) 0) 0 triangleVertexData
  let ia := writeBlock (resizeList s.indexarray (3 * 1) 0) 0 triangleIndexData
  ⟨va, ia, nverts, ntris⟩

/-- The vertex data array of `createBox` for half-extents `(x, y, z)`:
8 corner vertices, each with the (incorrect but faithful) normal
`(0,0,1)` and texcoord `(0,0)`. -/
def boxVertexData (x y z : ℚ) : List ℚ :=
  [-x, -y, -z, 0, 0, 1, 0, 0,
    x, -y, -z, 0, 0, 1, 0, 0,
   -x,  y, -z, 0, 0, 1, 0, 0,
    x,  y, -z, 0, 0, 1, 0, 0,
   -x, -y,  z, 0, 0, 1, 0, 0,
    x, -y,  z, 0, 0, 1, 0, 0,
   -x,  y,  z, 0, 0, 1, 0, 0,
    x,  y,  z, 0, 0, 1, 0, 0]

/-- The fixed, hand-authored index table of `createBox` (12 triangles). -/
def boxIndexData : List Int :=
  [0, 3, 1, 0, 2, 3, 1, 4, 0, 1, 5, 4, 4, 2, 0, 4, 6, 2,
   1, 3, 7, 1, 7, 5, 7, 2, 6, 7, 3, 2, 4, 5, 7, 4, 7, 6]

/-- Model of `TriangleSoup::createBox(xsize, ysize, zsize)`: sets `nverts_ = 8`,
`ntris_ = 12`, resizes both arrays and copies the data element by
element. -/
def createBox (x y z : ℚ) (s : TriangleSoup) : TriangleSoup :=
  let nverts : Int := 8
  let ntris : Int := 12
  let va := writeBlock (resizeList s.vertexarray (8 * 8) 0) 0 (boxVertexData x y z)
  let ia := writeBlock (resizeList s.indexarray (3 * 12) 0) 0 boxIndexData
  ⟨va, ia, nverts, ntris⟩

/-- Top-cap index writes of `createSphere`: for `i < hsegs`,
`indexarray_[3i .. 3i+2] = (0, 1+i, 2+i)`. -/
def sphereTopCap (hsegs : Int) (ia : List Int) : List Int :=
  (List.range hsegs.toNat).foldl (fun ia (i : Nat) =>
    writeBlock ia (3 * i) [0, 1 + (i : Int), 2 + (i : Int)]) ia

/-- Middle-band index writes of `createSphere`: for `j < vsegs-2` and
`i < hsegs`, two triangles per quad starting at
`base = 3*(hsegs + 2*(j*hsegs + i))`, with `i0 = 1 + j*(hsegs+1) + i`. -/
def sphereMiddle (vsegs hsegs : Int) (ia : List Int) : List Int :=
  (List.range (vsegs - 2).toNat).foldl (fun ia (j : Nat) =>
    (List.range hsegs.toNat).foldl (fun ia (i : Nat) =>
      writeBlock ia (3 * (hsegs + 2 * ((j : Int) * hsegs + (i : Int)))).toNat
        [1 + (j : Int) * (hsegs + 1) + (i : Int),
         1 + (j : Int) * (hsegs + 1) + (i : Int) + hsegs + 1,
         1 + (j : Int) * (hsegs + 1) + (i : Int) + 1,
         1 + (j : Int) * (hsegs + 1) + (i : Int) + 1,
         1 + (j : Int) * (hsegs + 1) + (i : Int) + hsegs + 1,
         1 + (j : Int) * (hsegs + 1) + (i : Int) + hsegs + 2]) ia) ia

/-- Bottom-cap index writes of `createSphere`: for `i < hsegs`, starting
at `base = 3*(hsegs + 2*(vsegs-2)*hsegs)`,
`indexarray_[base+3i .. base+3i+2] = (nverts-1, nverts-2-i, nverts-3-i)`. -/
def sphereBottomCap (vsegs hsegs nverts : Int) (ia : List Int) : List Int :=
  (List.range hsegs.toNat).foldl (fun ia (i : Nat) =>
    writeBlock ia (3 * (hsegs + 2 * (vsegs - 2) * hsegs) + 3 * (i : Int)).toNat
      [nverts - 1, nverts - 2 - (i : Int), nverts - 3 - (i : Int)]) ia

/-- The `vsegs-1` latitude rings of `hsegs+1` vertices each written by
`createSphere` (8 floats per vertex at stride-8 offsets). -/
def sphereVertexRings (sinF cosF : ℚ → ℚ) (piQ radius : ℚ) (vsegs hsegs : Int)
    (va : List ℚ) : List ℚ :=
  (List.range (vsegs - 1).toNat).foldl (fun va (j : Nat) =>
    (List.range (hsegs.toNat + 1)).foldl (fun va (i : Nat) =>
      writeBlock va ((1 + (j : Int) * (hsegs + 1) + (i : Int)) * 8).toNat
        [radius * (sinF (((j : ℚ) + 1) / (vsegs : ℚ) * piQ) * cosF ((i : ℚ) / (hsegs : ℚ) * 2 * piQ)),
         radius * (sinF (((j : ℚ) + 1) / (vsegs : ℚ) * piQ) * sinF ((i : ℚ) / (hsegs : ℚ) * 2 * piQ)),
         radius * cosF (((j : ℚ) + 1) / (vsegs : ℚ) * piQ),
         sinF (((j : ℚ) + 1) / (vsegs : ℚ) * piQ) * cosF ((i : ℚ) / (hsegs : ℚ) * 2 * piQ),
         sinF (((j : ℚ) + 1) / (vsegs : ℚ) * piQ) * sinF ((i : ℚ) / (hsegs : ℚ) * 2 * piQ),
         cosF (((j : ℚ) + 1) / (vsegs : ℚ) * piQ),
         (i : ℚ) / (hsegs : ℚ),
         1 - ((j : ℚ) + 1) / (vsegs : ℚ)]) va) va

/-- Model of `TriangleSoup::createSphere(radius, segments)`.  The real functions
`std::sin`, `std::cos` and the constant `M_PI` are passed in as the
parameters `sinF`, `cosF`, `piQ`: no claim depends on their values, and
the counts and index data are independent of them. -/
def createSphere (sinF cosF : ℚ → ℚ) (piQ : ℚ) (radius : ℚ) (segments : Int)
    (s : TriangleSoup) : TriangleSoup :=
  let s1 := clean s
  let vsegs : Int := max segments 2
  let hsegs : Int := vsegs * 2
  let nverts : Int := 1 + (vsegs - 1) * (hsegs + 1) + 1
  let ntris : Int := hsegs + (vsegs - 2) * hsegs * 2 + hsegs
  let va0 := resizeList s1.vertexarray (nverts * 8).toNat 0
  let ia0 := resizeList s1.indexarray (ntris * 3).toNat 0
  let va1 := writeBlock va0 0 [0, 0, radius, 0, 0, 1, 1/2, 1]
  let va2 := writeBlock va1 ((nverts - 1) * 8).toNat [0, 0, -radius, 0, 0, -1, 1/2, 0]
  let va3 := sphereVertexRings sinF cosF piQ radius vsegs hsegs va2
  let ia3 := sphereBottomCap vsegs hsegs nverts (sphereMiddle vsegs hsegs (sphereTopCap hsegs ia0))
  ⟨va3, ia3, nverts, ntris⟩

/-- The OpenGL constant `GL_RGB` (stored in `ImageData::type` for 24 bpp;
per `Texture.hpp`, it denotes 3 bytes per pixel). -/
def GL_RGB : Nat := 0x1907

/-- The OpenGL constant `GL_RGBA` (stored in `ImageData::type` for 32 bpp;
per `Texture.hpp`, it denotes 4 bytes per pixel). -/
def GL_RGBA : Nat := 0x1908

/-- The number of colour channels denoted by an `ImageData::type` value,
following the documentation in `Texture.hpp` ("3 bytes per pixel: GL_RGB,
4 bytes: GL_RGBA"). -/
def channelCount (ty : Nat) : Nat :=
  if ty = GL_RGB then 3 else if ty = GL_RGBA then 4 else 0

/-- Model of `Texture::ImageData`: width, height, GL type and pixel bytes.  The
in-class initialisers give `width = height = type = 0` and empty data. -/
structure ImageData where
  width : Nat
  height : Nat
  type : Nat
  data : List Nat
  deriving Repr, DecidableEq

/-- The value-initialised `ImageData{}` returned on every failure path. -/
def emptyImage : ImageData := ⟨0, 0, 0, []⟩

/-- The 12-byte signature of an uncompressed true-colour TGA file. -/
def uncompressedTGAHeader : List Nat := [0, 0, 2, 0, 0, 0, 0, 0, 0, 0, 0, 0]

/-- The 12-byte signature of a run-length-compressed TGA file. -/
def compressedTGAHeader : List Nat := [0, 0, 10, 0, 0, 0, 0, 0, 0, 0, 0, 0]

/-- Model of `std::swap(image.data[cswap], image.data[cswap + 2])`. -/
def swapPixel (d : List Nat) (c : Nat) : List Nat :=
  (d.set c (d.getD (c + 2) 0)).set (c + 2) (d.getD c 0)

/-- The BGR(A) → RGB(A) swap loop of `loadUncompressedTGA`
(`for (cswap = 0; cswap < imageSize; cswap += bytesPerPixel)`), which
runs `⌈imageSize / bytesPerPixel⌉` times. -/
def swapLoop (d : List Nat) (imageSize bytesPerPixel : Nat) : List Nat :=
  (List.range ((imageSize + bytesPerPixel - 1) / bytesPerPixel)).foldl
    (fun d (k : Nat) => swapPixel d (k * bytesPerPixel)) d

/-- Model of `Texture::loadUncompressedTGA(filename)`.  The argument is the byte
content of the named file (`none` when the file could not be opened);
bytes are naturals below 256.  `GLuint` arithmetic on the image size is
taken modulo `2^32` (the width and height, at most `65535`, and the
bits-per-pixel byte cannot wrap).  Every failure path of the C++
function returns the value-initialised `ImageData{}`. -/
def loadUncompressedTGA (file : Option (List Nat)) : ImageData :=
  match file with
  | none => emptyImage
  | some bytes =>
    if bytes.length < 12 then emptyImage
    else
      let tgaheader := bytes.take 12
      if tgaheader = compressedTGAHeader then emptyImage
      else if tgaheader ≠ uncompressedTGAHeader then emptyImage
      else
        let rest := bytes.drop 12
        if rest.length < 6 then emptyImage
        else
          let header := rest.take 6
          let width := header.getD 1 0 * 256 + header.getD 0 0
          let height := header.getD 3 0 * 256 + header.getD 2 0
          if width = 0 ∨ height = 0 then emptyImage
          else
            let bpp := header.getD 4 0
            let bytesPerPixel := bpp / 8
            let imageSize := bytesPerPixel * width * height % 2 ^ 32
            if bpp = 24 ∨ bpp = 32 then
              let pixels := rest.drop 6
              if pixels.length < imageSize then emptyImage
              else
                ⟨width, height, if bpp = 24 then GL_RGB else GL_RGBA,
                 swapLoop (pixels.take imageSize) imageSize bytesPerPixel⟩
            else emptyImage

/-- A parsed line of an OBJ file. -/
inductive ObjLine
  | v (nums : List ℚ)
  | vn (nums : List ℚ)
  | vt (nums : List ℚ)
  | f (tris : List (Int × Int × Int))
  | other
  deriving Repr, DecidableEq

/-- Tag recognisers used by the first (counting) pass of `readOBJ`. -/
def isV : ObjLine → Bool
  | .v _ => true
  | _ => false

def isVn : ObjLine → Bool
  | .vn _ => true
  | _ => false

def isVt : ObjLine → Bool
  | .vt _ => true
  | _ => false

def isF : ObjLine → Bool
  | .f _ => true
  | _ => false

/-- First pass of `readOBJ`: `numverts`. -/
def numVerts (lines : List ObjLine) : Nat := lines.countP isV

/-- First pass of `readOBJ`: `numnormals`. -/
def numNormals (lines : List ObjLine) : Nat := lines.countP isVn

/-- First pass of `readOBJ`: `numtexcoords`. -/
def numTexcoords (lines : List ObjLine) : Nat := lines.countP isVt

/-- First pass of `readOBJ`: `numfaces`. -/
def numFaces (lines : List ObjLine) : Nat := lines.countP isF

/-- Read `l[i]` for a C `int` index into a `std::vector<float>`: the
element when `0 ≤ i < l.length`, and the (unspecified-in-C) default 0
otherwise.  Out-of-range accesses are recorded separately by
`intGetOk` / the reader's ghost `oob` flag. -/
def intGet (l : List ℚ) (i : Int) : ℚ :=
  if h : 0 ≤ i ∧ i.toNat < l.length then l.get ⟨i.toNat, h.2⟩ else 0

/-- Whether the access `l[i]` is within bounds (ghost instrumentation:
a `false` marks undefined behaviour of the C++ source). -/
def intGetOk (l : List ℚ) (i : Int) : Bool :=
  decide (0 ≤ i) && decide (i.toNat < l.length)

/-- The 8 floats written for one face corner: position from `verts`,
normal from `normals`, texture coordinate from `texcoords`, at the
0-based indices `v`, `n`, `t`. -/
def cornerData (verts normals texcoords : List ℚ) (v n t : Int) : List ℚ :=
  [intGet verts (3 * v), intGet verts (3 * v + 1), intGet verts (3 * v + 2),
   intGet normals (3 * n), intGet normals (3 * n + 1), intGet normals (3 * n + 2),
   intGet texcoords (2 * t), intGet texcoords (2 * t + 1)]

/-- Whether all 8 reads of `cornerData` are in bounds. -/
def cornerOk (verts normals texcoords : List ℚ) (v n t : Int) : Bool :=
  intGetOk verts (3 * v) && intGetOk verts (3 * v + 1) && intGetOk verts (3 * v + 2) &&
  intGetOk normals (3 * n) && intGetOk normals (3 * n + 1) && intGetOk normals (3 * n + 2) &&
  intGetOk texcoords (2 * t) && intGetOk texcoords (2 * t + 1)

/-- State of the second pass of `readOBJ`: the temporary `verts`,
`normals`, `texcoords` vectors, the mesh arrays being filled, the four
line counters, the `readerror` flag, and the ghost flag `oob` recording
whether any temporary-array access was out of bounds (such an access is
undefined behaviour in the C++; the flag never influences the data). -/
structure ReadState where
  verts : List ℚ
  normals : List ℚ
  texcoords : List ℚ
  vertexarray : List ℚ
  indexarray : List Int
  i_v : Nat
  i_n : Nat
  i_t : Nat
  i_f : Nat
  readerror : Bool
  oob : Bool
  deriving Repr, DecidableEq

/-- Processing of one line in the second pass of `readOBJ` (once
`readerror` is set the `while` loop has been left by `break`, so further
lines leave the state unchanged). -/
def objStep (st : ReadState) (line : ObjLine) : ReadState :=
  if st.readerror then st
  else
    match line with
    | .v nums =>
      if min nums.length 3 ≠ 3 then { st with readerror := true }
      else
        { st with verts := writeBlock st.verts (3 * st.i_v) (nums.take 3),
                  i_v := st.i_v + 1 }
    | .vn nums =>
      if min nums.length 3 ≠ 3 then { st with readerror := true }
      else
        { st with normals := writeBlock st.normals (3 * st.i_n) (nums.take 3),
                  i_n := st.i_n + 1 }
    | .vt nums =>
      if min nums.length 2 ≠ 2 then { st with readerror := true }
      else
        { st with texcoords := writeBlock st.texcoords (2 * st.i_t) (nums.take 2),
                  i_t := st.i_t + 1 }
    | .f tris =>
      if min (3 * tris.length) 9 ≠ 9 then { st with readerror := true }
      else
        let t1 := tris.getD 0 (0, 0, 0)
        let t2 := tris.getD 1 (0, 0, 0)
        let t3 := tris.getD 2 (0, 0, 0)
        { st with
          vertexarray := writeBlock st.vertexarray (8 * (3 * st.i_f))
            (cornerData st.verts st.normals st.texcoords (t1.1 - 1) (t1.2.2 - 1) (t1.2.1 - 1) ++
             cornerData st.verts st.normals st.texcoords (t2.1 - 1) (t2.2.2 - 1) (t2.2.1 - 1) ++
             cornerData st.verts st.normals st.texcoords (t3.1 - 1) (t3.2.2 - 1) (t3.2.1 - 1)),
          indexarray := writeBlock st.indexarray (3 * st.i_f)
            [(3 * st.i_f : Int), (3 * st.i_f : Int) + 1, (3 * st.i_f : Int) + 2],
          i_f := st.i_f + 1,
          oob := st.oob ||
            !(cornerOk st.verts st.normals st.texcoords (t1.1 - 1) (t1.2.2 - 1) (t1.2.1 - 1) &&
              cornerOk st.verts st.normals st.texcoords (t2.1 - 1) (t2.2.2 - 1) (t2.2.1 - 1) &&
              cornerOk st.verts st.normals st.texcoords (t3.1 - 1) (t3.2.2 - 1) (t3.2.1 - 1)) }
    | .other => st

/-- The zero-initialised temporaries and the resized mesh arrays set up
between the two passes of `readOBJ`. -/
def objInit (lines : List ObjLine) (s : TriangleSoup) : ReadState where
  verts := List.replicate (3 * numVerts lines) 0
  normals := List.replicate (3 * numNormals lines) 0
  texcoords := List.replicate (2 * numTexcoords lines) 0
  vertexarray := resizeList s.vertexarray (8 * (3 * numFaces lines)) 0
  indexarray := resizeList s.indexarray (3 * numFaces lines) 0
  i_v := 0
  i_n := 0
  i_t := 0
  i_f := 0
  readerror := false
  oob := false

/-- The whole second pass of `readOBJ`. -/
def objRun (lines : List ObjLine) (s : TriangleSoup) : ReadState :=
  lines.foldl objStep (objInit lines s)

/-- Model of `TriangleSoup::readOBJ(filename)`: `none` models a file that cannot
be opened ("File not found": the function logs and returns with the
mesh untouched).  Otherwise both passes run; on a read error the partial
data is discarded by `clean()`, else the counters set before the second
pass (`nverts_ = 3*numfaces`, `ntris_ = numfaces`) are kept. -/
def readOBJ (file : Option (List ObjLine)) (s : TriangleSoup) : TriangleSoup :=
  match file with
  | none => s
  | some lines =>
    let st := objRun lines s
    if st.readerror then clean s
    else
      { vertexarray := st.vertexarray, indexarray := st.indexarray,
        nverts := (3 * numFaces lines : Nat), ntris := (numFaces lines : Nat) }

/-- An OBJ file whose single face line carries four `v/t/n` triples
(a quad). -/
def quadFile : List ObjLine :=
  [.v [0, 0, 0], .v [1, 0, 0], .v [0, 1, 0], .v [0, 0, 1],
   .vt [0, 0], .vt [1, 0], .vt [0, 1], .vt [1, 1],
   .vn [0, 0, 1], .vn [0, 0, 1], .vn [0, 0, 1], .vn [0, 0, 1],
   .f [(1, 1, 1), (2, 2, 2), (3, 3, 3), (4, 4, 4)]]

/-- A recognised line on which `sscanf` assigns fewer fields than the
format requires, triggering the `numargs != …` abort in `readOBJ`. -/
def badLine : ObjLine → Bool
  | .v nums => decide (nums.length < 3)
  | .vn nums => decide (nums.length < 3)
  | .vt nums => decide (nums.length < 2)
  | .f tris => decide (tris.length < 3)
  | .other => false

/-- A recognised line carrying exactly the field count its format
expects (an `other` line has no expected count). -/
def exactFieldCount : ObjLine → Bool
  | .v nums => decide (nums.length = 3)
  | .vn nums => decide (nums.length = 3)
  | .vt nums => decide (nums.length = 2)
  | .f tris => decide (tris.length = 3)
  | .other => true

/-- An OBJ file whose first `v` line carries four numeric fields (a
wrong field count for the `v` format) ahead of an otherwise valid
mesh. -/
def extraFieldsFile : List ObjLine :=
  [.v [0, 0, 0, 99], .v [1, 0, 0], .v [0, 1, 0],
   .vt [0, 0], .vn [0, 0, 1],
   .f [(1, 1, 1), (2, 1, 1), (3, 1, 1)]]

/-- The in-range condition of claim C9 for one `v/t/n` triple of a face
line: each 1-based index lies within the corresponding first-pass
count. -/
def faceTripleOk (nv nt nn : Nat) (t : Int × Int × Int) : Bool :=
  decide (1 ≤ t.1) && decide (t.1 ≤ (nv : Int)) &&
  decide (1 ≤ t.2.1) && decide (t.2.1 ≤ (nt : Int)) &&
  decide (1 ≤ t.2.2) && decide (t.2.2 ≤ (nn : Int))

/-- The in-range condition of claim C9 for a whole line: only the (first
three triples of a) face line constrain anything. -/
def lineInRange (nv nt nn : Nat) : ObjLine → Bool
  | .f tris => (tris.take 3).all (faceTripleOk nv nt nn)
  | _ => true

/-- An OBJ file with one face line whose second vertex index (2) exceeds
the single `v` line counted in the first pass. -/
def oobFile : List ObjLine :=
  [.v [0, 0, 0], .vt [0, 0], .vn [0, 0, 1], .f [(1, 1, 1), (2, 1, 1), (1, 1, 1)]]

/-- The data-model invariant of the mesh: the index array holds
`3 * ntris_` entries and the interleaved vertex array `8 * nverts_`
floats. -/
def goodLengths (t : TriangleSoup) : Prop :=
  (t.indexarray.length : Int) = 3 * t.ntris ∧
  (t.vertexarray.length : Int) = 8 * t.nverts

/-! ## Theorems -/

theorem length_resizeList {α : Type} (l : List α) (n : Nat) (d : α) :
    (resizeList l n d).length = n := by
  simp [resizeList]
  omega

theorem length_writeBlock {α : Type} (vs : List α) (l : List α) (b : Nat) :
    (writeBlock l b vs).length = l.length := by
  induction vs generalizing l b with
  | nil => rfl
  | cons v vs ih => simp [writeBlock, ih]

theorem mem_writeBlock {α : Type} (vs : List α) (l : List α) (b : Nat) (x : α)
    (hx : x ∈ writeBlock l b vs) : x ∈ l ∨ x ∈ vs := by
  induction vs generalizing l b with
  | nil => exact Or.inl hx
  | cons v vs ih =>
    rcases ih (l.set b v) (b + 1) hx with h | h
    · rcases List.mem_or_eq_of_mem_set h with h' | h'
      · exact Or.inl h'
      · exact Or.inr (by simp [h'])
    · exact Or.inr (List.mem_cons_of_mem _ h)

theorem writeBlock_cons_succ {α : Type} (vs : List α) (a : α) (l : List α) (b : Nat) :
    writeBlock (a :: l) (b + 1) vs = a :: writeBlock l b vs := by
  induction vs generalizing l b with
  | nil => rfl
  | cons v vs ih => simp [writeBlock, List.set, ih]

/-- A block write starting at index 0 that covers the whole vector
replaces its contents entirely. -/
theorem writeBlock_zero_full {α : Type} (vs : List α) (l : List α)
    (h : l.length = vs.length) : writeBlock l 0 vs = vs := by
  induction vs generalizing l with
  | nil => cases l <;> simp_all [writeBlock]
  | cons v vs ih =>
    cases l with
    | nil => simp at h
    | cons a t =>
      simp only [writeBlock, List.set]
      rw [writeBlock_cons_succ, ih t (by simpa using h)]

/-- Invariant preservation through `List.foldl`. -/
theorem foldl_inv {α β : Type} (I : β → Prop) (f : β → α → β) (xs : List α) (b : β)
    (h0 : I b) (hstep : ∀ c a, I c → a ∈ xs → I (f c a)) : I (xs.foldl f b) := by
  induction xs generalizing b with
  | nil => exact h0
  | cons x xs ih =>
    exact ih (f b x) (hstep b x h0 (List.mem_cons_self x xs))
      (fun c a hc ha => hstep c a hc (List.mem_cons_of_mem x ha))

theorem length_boxVertexData (x y z : ℚ) : (boxVertexData x y z).length = 64 := rfl

/-- Claim C8: `createBox` always produces exactly 8 vertices and 12
triangles with the fixed index table, and the result is independent of
the previous mesh state: re-invoking with different extents fully
replaces the prior vertex and index contents. -/
theorem createBox_replaces_fully (x y z : ℚ) (s : TriangleSoup) :
    createBox x y z s =
      { vertexarray := boxVertexData x y z, indexarray := boxIndexData,
        nverts := 8, ntris := 12 } := by
  unfold createBox
  refine TriangleSoup.mk.injEq .. ▸ ?_
  refine ⟨?_, ?_, rfl, rfl⟩
  · exact writeBlock_zero_full _ _ (by rw [length_resizeList, length_boxVertexData])
  · exact writeBlock_zero_full _ _ (by rw [length_resizeList]; rfl)

/-- With `2 ≤ vsegs` and `hsegs = vsegs * 2`, the sphere's vertex count
is at least `hsegs + 3`. -/
theorem sphere_nverts_lower (vsegs hsegs nverts : Int) (hv : 2 ≤ vsegs)
    (hh : hsegs = vsegs * 2) (hn : nverts = 1 + (vsegs - 1) * (hsegs + 1) + 1) :
    hsegs + 3 ≤ nverts := by
  nlinarith [mul_nonneg (by omega : (0:Int) ≤ vsegs - 2) (by omega : (0:Int) ≤ hsegs + 1)]

theorem sphereTopCap_bound (hsegs nverts : Int) (ia : List Int)
    (hn3 : hsegs + 3 ≤ nverts)
    (hia : ∀ e ∈ ia, 0 ≤ e ∧ e < nverts) :
    ∀ e ∈ sphereTopCap hsegs ia, 0 ≤ e ∧ e < nverts := by
  unfold sphereTopCap
  refine foldl_inv (fun l => ∀ e ∈ l, 0 ≤ e ∧ e < nverts) _ _ _ hia ?_
  intro c i hc hi e he
  rcases mem_writeBlock _ _ _ _ he with h | h
  · exact hc e h
  · have hi' : (i : Int) < hsegs := by
      have := List.mem_range.mp hi; omega
    simp only [List.mem_cons, List.not_mem_nil, or_false] at h
    rcases h with h | h | h <;> subst h <;> constructor <;> omega

theorem sphereMiddle_bound (vsegs hsegs nverts : Int) (ia : List Int)
    (hv : 2 ≤ vsegs) (hh : hsegs = vsegs * 2)
    (hn : nverts = 1 + (vsegs - 1) * (hsegs + 1) + 1)
    (hia : ∀ e ∈ ia, 0 ≤ e ∧ e < nverts) :
    ∀ e ∈ sphereMiddle vsegs hsegs ia, 0 ≤ e ∧ e < nverts := by
  unfold sphereMiddle
  refine foldl_inv (fun l => ∀ e ∈ l, 0 ≤ e ∧ e < nverts) _ _ _ hia ?_
  intro c j hc hj
  refine foldl_inv (fun l => ∀ e ∈ l, 0 ≤ e ∧ e < nverts) _ _ _ hc ?_
  intro d i hd hi e he
  rcases mem_writeBlock _ _ _ _ he with h | h
  · exact hd e h
  · have hj' : (j : Int) < vsegs - 2 := by
      have := List.mem_range.mp hj; omega
    have hi' : (i : Int) < hsegs := by
      have := List.mem_range.mp hi; omega
    have hj0 : (0 : Int) ≤ (j : Int) := by omega
    have hi0 : (0 : Int) ≤ (i : Int) := by omega
    have hmul0 : (0 : Int) ≤ (j : Int) * (hsegs + 1) :=
      mul_nonneg hj0 (by omega)
    have hkey : 1 + (j : Int) * (hsegs + 1) + (i : Int) + hsegs + 2 < nverts := by
      nlinarith [mul_nonneg (by omega : (0:Int) ≤ vsegs - 3 - (j : Int))
        (by omega : (0:Int) ≤ hsegs + 1)]
    simp only [List.mem_cons, List.not_mem_nil, or_false] at h
    rcases h with h | h | h | h | h | h <;> subst h <;> constructor <;> linarith

theorem sphereBottomCap_bound (vsegs hsegs nverts : Int) (ia : List Int)
    (hh4 : 4 ≤ hsegs) (hn3 : hsegs + 3 ≤ nverts)
    (hia : ∀ e ∈ ia, 0 ≤ e ∧ e < nverts) :
    ∀ e ∈ sphereBottomCap vsegs hsegs nverts ia, 0 ≤ e ∧ e < nverts := by
  unfold sphereBottomCap
  refine foldl_inv (fun l => ∀ e ∈ l, 0 ≤ e ∧ e < nverts) _ _ _ hia ?_
  intro c i hc hi e he
  rcases mem_writeBlock _ _ _ _ he with h | h
  · exact hc e h
  · have hi' : (i : Int) < hsegs := by
      have := List.mem_range.mp hi; omega
    have hi0 : (0 : Int) ≤ (i : Int) := by omega
    simp only [List.mem_cons, List.not_mem_nil, or_false] at h
    rcases h with h | h | h <;> subst h <;> constructor <;> omega

/-- Claim C1: for every radius and every `segments` value, `createSphere`
(with `vsegs = max(segments, 2)` and `hsegs = 2*vsegs`) produces
`nverts_ = 1 + (vsegs-1)*(hsegs+1) + 1` and
`ntris_ = hsegs + (vsegs-2)*hsegs*2 + hsegs`, and every entry of the
generated index array is nonnegative and strictly less than the vertex
count. -/
theorem createSphere_counts_and_index_bound (sinF cosF : ℚ → ℚ) (piQ radius : ℚ)
    (segments : Int) (s : TriangleSoup) :
    (createSphere sinF cosF piQ radius segments s).nverts
        = 1 + (max segments 2 - 1) * (2 * max segments 2 + 1) + 1 ∧
    (createSphere sinF cosF piQ radius segments s).ntris
        = 2 * max segments 2 + (max segments 2 - 2) * (2 * max segments 2) * 2
            + 2 * max segments 2 ∧
    ∀ e ∈ (createSphere sinF cosF piQ radius segments s).indexarray,
      0 ≤ e ∧ e < (createSphere sinF cosF piQ radius segments s).nverts := by
  have hv : 2 ≤ max segments 2 := le_max_right _ _
  refine ⟨by simp only [createSphere]; ring_nf, by simp only [createSphere]; ring_nf, ?_⟩
  simp only [createSphere]
  have hn3 : (max segments 2) * 2 + 3 ≤ 1 + (max segments 2 - 1) * (max segments 2 * 2 + 1) + 1 :=
    sphere_nverts_lower _ _ _ hv rfl rfl
  refine sphereBottomCap_bound _ _ _ _ (by omega) hn3 ?_
  refine sphereMiddle_bound _ _ _ _ hv rfl rfl ?_
  refine sphereTopCap_bound _ _ _ hn3 ?_
  intro e he
  simp only [clean, resizeList, List.take_nil, List.length_nil, Nat.sub_zero,
    List.nil_append] at he
  have h0 : e = 0 := List.eq_of_mem_replicate he
  constructor <;> omega

theorem length_swapPixel (d : List Nat) (c : Nat) :
    (swapPixel d c).length = d.length := by
  simp [swapPixel]

theorem length_swapLoop (d : List Nat) (imageSize bytesPerPixel : Nat) :
    (swapLoop d imageSize bytesPerPixel).length = d.length := by
  unfold swapLoop
  refine foldl_inv (fun (l : List Nat) => l.length = d.length) _ _ _ rfl ?_
  intro c k hc _
  rw [length_swapPixel, hc]

/-- Claim C3: a well-formed TGA stream (uncompressed signature, width 2,
height 1, 24 bpp) followed by exactly 6 pixel bytes decodes successfully
to a `GL_RGB` (3-channel) image whose bytes 0 and 2 of each 3-byte pixel
group are swapped relative to the input, while the same header followed
by only 3 pixel bytes yields the empty result. -/
theorem loadTGA_2x1_24bpp (r p0 p1 p2 p3 p4 p5 : Nat) :
    loadUncompressedTGA (some (uncompressedTGAHeader ++ [2, 0, 1, 0, 24, r] ++
        [p0, p1, p2, p3, p4, p5]))
      = ⟨2, 1, GL_RGB, [p2, p1, p0, p5, p4, p3]⟩ ∧
    channelCount GL_RGB = 3 ∧
    loadUncompressedTGA (some (uncompressedTGAHeader ++ [2, 0, 1, 0, 24, r] ++
        [p0, p1, p2]))
      = emptyImage := by
  refine ⟨?_, rfl, ?_⟩ <;>
    norm_num [loadUncompressedTGA, uncompressedTGAHeader, compressedTGAHeader,
      swapLoop, swapPixel, List.range_succ, emptyImage, GL_RGB]

/-- Claim C7: any input whose first 12 bytes equal the
run-length-compressed signature is rejected with the empty result,
whatever the remaining content. -/
theorem loadTGA_compressed_rejected (rest : List Nat) :
    loadUncompressedTGA (some (compressedTGAHeader ++ rest)) = emptyImage := by
  have h12 : (compressedTGAHeader ++ rest).take 12 = compressedTGAHeader :=
    List.take_left' rfl
  have hlen : ¬ (compressedTGAHeader ++ rest).length < 12 := by
    simp [compressedTGAHeader]
  simp [loadUncompressedTGA, hlen, h12]

/-- Successful decode of an uncompressed TGA stream, in generic form:
with a nonzero width and height, a bits-per-pixel byte of 24 or 32, and
at least `imageSize = bpp/8 * width * height mod 2^32` pixel bytes
available, the decoder returns an image of exactly `imageSize` swapped
pixel bytes. -/
theorem loadTGA_success (b0 b1 b2 b3 b4 b5 : Nat) (px : List Nat)
    (hw : b1 * 256 + b0 ≠ 0) (hh : b3 * 256 + b2 ≠ 0)
    (hbpp : b4 = 24 ∨ b4 = 32)
    (hlen : b4 / 8 * (b1 * 256 + b0) * (b3 * 256 + b2) % 2 ^ 32 ≤ px.length) :
    loadUncompressedTGA (some (uncompressedTGAHeader ++ [b0, b1, b2, b3, b4, b5] ++ px))
      = ⟨b1 * 256 + b0, b3 * 256 + b2, if b4 = 24 then GL_RGB else GL_RGBA,
         swapLoop (px.take (b4 / 8 * (b1 * 256 + b0) * (b3 * 256 + b2) % 2 ^ 32))
           (b4 / 8 * (b1 * 256 + b0) * (b3 * 256 + b2) % 2 ^ 32) (b4 / 8)⟩ := by
  have htake12 : (uncompressedTGAHeader ++ ([b0, b1, b2, b3, b4, b5] ++ px)).take 12
      = uncompressedTGAHeader := List.take_left' rfl
  have hdrop12 : (uncompressedTGAHeader ++ ([b0, b1, b2, b3, b4, b5] ++ px)).drop 12
      = [b0, b1, b2, b3, b4, b5] ++ px := List.drop_left' rfl
  have htake6 : ([b0, b1, b2, b3, b4, b5] ++ px).take 6 = [b0, b1, b2, b3, b4, b5] :=
    List.take_left' rfl
  have hdrop6 : ([b0, b1, b2, b3, b4, b5] ++ px).drop 6 = px := List.drop_left' rfl
  have hlen12 : ¬ (uncompressedTGAHeader ++ ([b0, b1, b2, b3, b4, b5] ++ px)).length < 12 := by
    simp [uncompressedTGAHeader]
  have hlen6 : ¬ ([b0, b1, b2, b3, b4, b5] ++ px).length < 6 := by
    simp
  have hdim : ¬ (b1 * 256 + b0 = 0 ∨ b3 * 256 + b2 = 0) := by
    push_neg
    exact ⟨hw, hh⟩
  have hg0 : ([b0, b1, b2, b3, b4, b5] : List Nat).getD 0 0 = b0 := rfl
  have hg1 : ([b0, b1, b2, b3, b4, b5] : List Nat).getD 1 0 = b1 := rfl
  have hg2 : ([b0, b1, b2, b3, b4, b5] : List Nat).getD 2 0 = b2 := rfl
  have hg3 : ([b0, b1, b2, b3, b4, b5] : List Nat).getD 3 0 = b3 := rfl
  have hg4 : ([b0, b1, b2, b3, b4, b5] : List Nat).getD 4 0 = b4 := rfl
  simp only [loadUncompressedTGA, List.append_assoc]
  rw [if_neg hlen12, htake12, hdrop12,
    if_neg (by decide : ¬ (uncompressedTGAHeader = compressedTGAHeader)),
    if_neg (by simp : ¬ (uncompressedTGAHeader ≠ uncompressedTGAHeader)),
    if_neg hlen6, htake6, hdrop6, hg0, hg1, hg2, hg3, hg4,
    if_neg hdim, if_pos hbpp, if_neg (Nat.not_lt.mpr hlen)]

/-- Claim C10: the decoder computes `imageSize = bytesPerPixel * width *
height` in 32-bit unsigned arithmetic, so a valid header with
width = height = 65535 and 32 bits per pixel yields a wrapped size
`4*65535*65535 mod 2^32 = 4294443012`, different from the true product,
and the decoder reads and returns a pixel buffer of exactly that wrapped
length. -/
theorem loadTGA_imageSize_wraps :
    (loadUncompressedTGA (some (uncompressedTGAHeader ++ [255, 255, 255, 255, 32, 0] ++
        List.replicate 4294443012 0))).data.length = 4294443012 ∧
    (4294443012 : Nat) = 32 / 8 * 65535 * 65535 % 2 ^ 32 ∧
    (4294443012 : Nat) ≠ 32 / 8 * 65535 * 65535 ∧
    (loadUncompressedTGA (some (uncompressedTGAHeader ++ [255, 255, 255, 255, 32, 0] ++
        List.replicate 4294443012 0))).width = 65535 ∧
    (loadUncompressedTGA (some (uncompressedTGAHeader ++ [255, 255, 255, 255, 32, 0] ++
        List.replicate 4294443012 0))).height = 65535 ∧
    (loadUncompressedTGA (some (uncompressedTGAHeader ++ [255, 255, 255, 255, 32, 0] ++
        List.replicate 4294443012 0))).type = GL_RGBA := by
  have h := loadTGA_success 255 255 255 255 32 0 (List.replicate 4294443012 0)
    (by norm_num) (by norm_num) (Or.inr rfl) (by norm_num)
  rw [h]
  refine ⟨?_, by norm_num, by norm_num, by norm_num, by norm_num, by norm_num⟩
  rw [length_swapLoop, List.length_take, List.length_replicate]
  norm_num

/-- Counterexample to claim C4: `readOBJ` on a file that cannot be
opened does **not** leave the mesh empty regardless of prior contents —
it returns before touching the mesh, so a mesh previously filled by
`createTriangle` still has 3 vertices and 1 triangle afterwards. -/
theorem readOBJ_notfound_keeps_old_mesh :
    (readOBJ none (createTriangle emptySoup)).nverts = 3 ∧
    (readOBJ none (createTriangle emptySoup)).ntris = 1 := ⟨rfl, rfl⟩

/-- Claim C4 (amended): when the file cannot be opened, `readOBJ` logs
the failure and returns with the mesh unchanged (in particular, a mesh
that was empty before the call is still empty). -/
theorem readOBJ_notfound_unchanged (s : TriangleSoup) : readOBJ none s = s := rfl

/-- Claim C2 evaluated on the failing input: a face line with four
`v/t/n` triples does **not** abort the import.  `sscanf` with the
9-conversion format returns 9 on such a line (the fourth triple is
simply not consumed), so the quad is silently truncated to a triangle:
the import succeeds with 1 triangle and 3 vertices instead of returning
an empty mesh, contradicting the comment `Accept only triangles. Quads
cause an error.` and the header documentation `OBJ files with quads are
rejected.` -/
theorem readOBJ_quad_not_rejected :
    (readOBJ (some quadFile) emptySoup).ntris = 1 ∧
    (readOBJ (some quadFile) emptySoup).nverts = 3 := ⟨rfl, rfl⟩

/-- Once `readerror` is set, the loop has been left by `break`:
processing further lines changes nothing. -/
theorem objStep_error (st : ReadState) (l : ObjLine) (h : st.readerror = true) :
    objStep st l = st := by
  simp [objStep, h]

theorem foldl_objStep_error (lines : List ObjLine) (st : ReadState)
    (h : st.readerror = true) : (lines.foldl objStep st).readerror = true := by
  refine foldl_inv (fun (c : ReadState) => c.readerror = true) _ _ _ h ?_
  intro c a hc _
  rw [objStep_error c a hc]
  exact hc

theorem objStep_bad (st : ReadState) (l : ObjLine) (hl : badLine l = true) :
    (objStep st l).readerror = true := by
  by_cases h : st.readerror = true
  · rw [objStep_error st l h]
    exact h
  · have h' : st.readerror = false := by simpa using h
    cases l with
    | v nums =>
      have hc : min nums.length 3 ≠ 3 := by
        simp [badLine] at hl
        omega
      simp [objStep, h', hc]
    | vn nums =>
      have hc : min nums.length 3 ≠ 3 := by
        simp [badLine] at hl
        omega
      simp [objStep, h', hc]
    | vt nums =>
      have hc : min nums.length 2 ≠ 2 := by
        simp [badLine] at hl
        omega
      simp [objStep, h', hc]
    | f tris =>
      have hc : min (3 * tris.length) 9 ≠ 9 := by
        simp [badLine] at hl
        omega
      simp [objStep, h', hc]
    | other =>
      simp [badLine] at hl

theorem foldl_objStep_bad (lines : List ObjLine) (st : ReadState)
    (hbad : ∃ l ∈ lines, badLine l = true) :
    (lines.foldl objStep st).readerror = true := by
  induction lines generalizing st with
  | nil => simp at hbad
  | cons a as ih =>
    rcases hbad with ⟨l, hl, hbl⟩
    simp only [List.foldl_cons]
    rcases List.mem_cons.mp hl with rfl | hmem
    · exact foldl_objStep_error as _ (objStep_bad st l hbl)
    · exact ih (objStep st a) ⟨l, hmem, hbl⟩

/-- Counterexample to claim C6 as stated: `extraFieldsFile` contains a
recognised (`v`) line whose field count is wrong (4 fields instead of
3), yet the import does **not** abort — `sscanf` assigns the first three
fields and reports 3 conversions, the extra field is ignored, and
the import completes with a non-empty mesh (1 triangle). -/
theorem readOBJ_extra_fields_accepted :
    extraFieldsFile.all exactFieldCount = false ∧
    (readOBJ (some extraFieldsFile) emptySoup).ntris = 1 ∧
    (readOBJ (some extraFieldsFile) emptySoup).nverts = 3 := ⟨rfl, rfl, rfl⟩

/-- Claim C6 (amended): a recognised line on which fewer fields parse
than the format requires aborts the entire import — the error is
reported, all partially built mesh data is discarded and the mesh is
left empty, with no per-line recovery; a recognised line with extra
trailing fields is processed exactly as if the extras were absent; and
unrecognised tags are silently ignored. -/
theorem readOBJ_short_line_aborts :
    (∀ (lines : List ObjLine) (s : TriangleSoup), (∃ l ∈ lines, badLine l = true) →
        readOBJ (some lines) s = ⟨[], [], 0, 0⟩) ∧
    (∀ st : ReadState, objStep st .other = st) ∧
    (∀ (st : ReadState) (nums : List ℚ), 3 ≤ nums.length →
        objStep st (.v nums) = objStep st (.v (nums.take 3))) ∧
    (∀ (st : ReadState) (nums : List ℚ), 3 ≤ nums.length →
        objStep st (.vn nums) = objStep st (.vn (nums.take 3))) ∧
    (∀ (st : ReadState) (nums : List ℚ), 2 ≤ nums.length →
        objStep st (.vt nums) = objStep st (.vt (nums.take 2))) ∧
    (∀ (st : ReadState) (tris : List (Int × Int × Int)), 3 ≤ tris.length →
        objStep st (.f tris) = objStep st (.f (tris.take 3))) := by
  refine ⟨?_, ?_, ?_, ?_, ?_, ?_⟩
  · intro lines s hbad
    have herr : (objRun lines s).readerror = true := foldl_objStep_bad lines _ hbad
    simp [readOBJ, herr, clean]
  · intro st
    simp [objStep]
  · intro st nums h
    have h3 : ¬ nums.length < 3 := by omega
    simp [objStep, h3, List.take_take]
  · intro st nums h
    have h3 : ¬ nums.length < 3 := by omega
    simp [objStep, h3, List.take_take]
  · intro st nums h
    have h2 : ¬ nums.length < 2 := by omega
    simp [objStep, h2, List.take_take]
  · intro st tris h
    match tris, h with
    | a :: b :: c :: rest, _ =>
      have h9 : ¬ 3 * (rest.length + 1 + 1 + 1) < 9 := by omega
      simp [objStep, List.take, List.getD, h9]

/-- Witness for the amended claim C6: a file whose first `v` line
carries only two fields makes `readOBJ` discard a previously non-empty
mesh and return the empty mesh. -/
theorem readOBJ_short_line_aborts_witness :
    (∃ l ∈ [ObjLine.v [0, 0], ObjLine.f [(1, 1, 1), (1, 1, 1), (1, 1, 1)]],
        badLine l = true) ∧
    readOBJ (some [ObjLine.v [0, 0], ObjLine.f [(1, 1, 1), (1, 1, 1), (1, 1, 1)]])
        (createTriangle emptySoup) = ⟨[], [], 0, 0⟩ :=
  ⟨by decide, readOBJ_short_line_aborts.1 _ (createTriangle emptySoup) (by decide)⟩

theorem exists_three {α : Type} (l : List α) (h : 3 ≤ l.length) :
    ∃ a b c rest, l = a :: b :: c :: rest := by
  cases l with
  | nil => simp at h
  | cons a l1 =>
    cases l1 with
    | nil => simp at h
    | cons b l2 =>
      cases l2 with
      | nil => simp at h
      | cons c rest => exact ⟨a, b, c, rest, rfl⟩

/-- The step function `objStep` never changes the lengths of the temporary and mesh
arrays (they are fixed by `objInit` from the first-pass counts). -/
theorem objStep_lengths (st : ReadState) (l : ObjLine) :
    (objStep st l).verts.length = st.verts.length ∧
    (objStep st l).normals.length = st.normals.length ∧
    (objStep st l).texcoords.length = st.texcoords.length ∧
    (objStep st l).vertexarray.length = st.vertexarray.length ∧
    (objStep st l).indexarray.length = st.indexarray.length := by
  by_cases h : st.readerror = true
  · rw [objStep_error st l h]
    exact ⟨rfl, rfl, rfl, rfl, rfl⟩
  · have h' : st.readerror = false := by simpa using h
    cases l with
    | v nums =>
      by_cases hc : min nums.length 3 ≠ 3 <;> simp [objStep, h', hc, length_writeBlock]
    | vn nums =>
      by_cases hc : min nums.length 3 ≠ 3 <;> simp [objStep, h', hc, length_writeBlock]
    | vt nums =>
      by_cases hc : min nums.length 2 ≠ 2 <;> simp [objStep, h', hc, length_writeBlock]
    | f tris =>
      by_cases hc : min (3 * tris.length) 9 ≠ 9 <;>
        simp [objStep, h', hc, length_writeBlock]
    | other => simp [objStep, h']

theorem cornerOk_true (verts normals texcoords : List ℚ) (v n t : Int)
    (hv0 : 0 ≤ v) (hv1 : 3 * v + 2 < (verts.length : Int))
    (hn0 : 0 ≤ n) (hn1 : 3 * n + 2 < (normals.length : Int))
    (ht0 : 0 ≤ t) (ht1 : 2 * t + 1 < (texcoords.length : Int)) :
    cornerOk verts normals texcoords v n t = true := by
  simp only [cornerOk, Bool.and_eq_true, intGetOk, decide_eq_true_eq]
  omega

/-- Claim C9: `readOBJ` performs no range check on parsed face indices.
When every face line's nine 1-based indices lie within the first-pass
counts of `v`, `vt` and `vn` lines, all reads of the temporary arrays
are in bounds (the ghost `oob` flag stays `false`); and a face index
outside those ranges is neither detected nor rejected — on `oobFile`
an out-of-bounds access occurs (`oob = true`) while the import still
completes without error and produces a triangle. -/
theorem readOBJ_no_face_index_range_check :
    (∀ (lines : List ObjLine) (s : TriangleSoup),
        (∀ l ∈ lines,
          lineInRange (numVerts lines) (numTexcoords lines) (numNormals lines) l = true) →
        (objRun lines s).oob = false) ∧
    (objRun oobFile emptySoup).oob = true ∧
    (objRun oobFile emptySoup).readerror = false ∧
    (readOBJ (some oobFile) emptySoup).ntris = 1 := by
  refine ⟨?_, rfl, rfl, rfl⟩
  intro lines s h
  have key : (objRun lines s).oob = false ∧
      (objRun lines s).verts.length = 3 * numVerts lines ∧
      (objRun lines s).normals.length = 3 * numNormals lines ∧
      (objRun lines s).texcoords.length = 2 * numTexcoords lines := by
    unfold objRun
    refine foldl_inv (fun (c : ReadState) =>
      c.oob = false ∧ c.verts.length = 3 * numVerts lines ∧
      c.normals.length = 3 * numNormals lines ∧
      c.texcoords.length = 2 * numTexcoords lines) _ _ _ ?_ ?_
    · simp [objInit]
    · intro c a hc ha
      obtain ⟨hoob, hv, hn, ht⟩ := hc
      by_cases herr : c.readerror = true
      · rw [objStep_error c a herr]
        exact ⟨hoob, hv, hn, ht⟩
      · have herr' : c.readerror = false := by simpa using herr
        cases a with
        | v nums =>
          by_cases hcnd : min nums.length 3 ≠ 3 <;>
            simp [objStep, herr', hcnd, length_writeBlock, hoob, hv, hn, ht]
        | vn nums =>
          by_cases hcnd : min nums.length 3 ≠ 3 <;>
            simp [objStep, herr', hcnd, length_writeBlock, hoob, hv, hn, ht]
        | vt nums =>
          by_cases hcnd : min nums.length 2 ≠ 2 <;>
            simp [objStep, herr', hcnd, length_writeBlock, hoob, hv, hn, ht]
        | other => simp [objStep, herr', hoob, hv, hn, ht]
        | f tris =>
          by_cases hcnd : min (3 * tris.length) 9 ≠ 9
          · simp [objStep, herr', hcnd, hoob, hv, hn, ht]
          · have h3 : 3 ≤ tris.length := by omega
            obtain ⟨t1, t2, t3, rest, rfl⟩ := exists_three tris h3
            have hall := h _ ha
            simp only [lineInRange, List.take, List.all_cons, List.all_nil,
              Bool.and_eq_true, faceTripleOk, decide_eq_true_eq, and_true] at hall
            obtain ⟨hA, hB, hC⟩ := hall
            have ok1 : cornerOk c.verts c.normals c.texcoords
                (t1.1 - 1) (t1.2.2 - 1) (t1.2.1 - 1) = true :=
              cornerOk_true _ _ _ _ _ _ (by omega) (by rw [hv]; push_cast; omega)
                (by omega) (by rw [hn]; push_cast; omega)
                (by omega) (by rw [ht]; push_cast; omega)
            have ok2 : cornerOk c.verts c.normals c.texcoords
                (t2.1 - 1) (t2.2.2 - 1) (t2.2.1 - 1) = true :=
              cornerOk_true _ _ _ _ _ _ (by omega) (by rw [hv]; push_cast; omega)
                (by omega) (by rw [hn]; push_cast; omega)
                (by omega) (by rw [ht]; push_cast; omega)
            have ok3 : cornerOk c.verts c.normals c.texcoords
                (t3.1 - 1) (t3.2.2 - 1) (t3.2.1 - 1) = true :=
              cornerOk_true _ _ _ _ _ _ (by omega) (by rw [hv]; push_cast; omega)
                (by omega) (by rw [hn]; push_cast; omega)
                (by omega) (by rw [ht]; push_cast; omega)
            have hcnd9 : ¬ 3 * (rest.length + 1 + 1 + 1) < 9 := by omega
            simp [objStep, herr', hcnd, hcnd9, length_writeBlock, hoob, hv, hn, ht,
              ok1, ok2, ok3]
  exact key.1

/-- Witness for claim C9: a file whose face indices all lie within the
first-pass counts triggers no out-of-bounds access. -/
theorem readOBJ_no_face_index_range_check_witness :
    (∀ l ∈ [ObjLine.v [0, 0, 0], ObjLine.vt [0, 0], ObjLine.vn [0, 0, 1],
        ObjLine.f [(1, 1, 1), (1, 1, 1), (1, 1, 1)]],
      lineInRange 1 1 1 l = true) ∧
    (objRun [ObjLine.v [0, 0, 0], ObjLine.vt [0, 0], ObjLine.vn [0, 0, 1],
        ObjLine.f [(1, 1, 1), (1, 1, 1), (1, 1, 1)]] emptySoup).oob = false :=
  ⟨by decide, readOBJ_no_face_index_range_check.1 _ emptySoup (by decide)⟩

theorem length_sphereTopCap (hsegs : Int) (ia : List Int) :
    (sphereTopCap hsegs ia).length = ia.length := by
  unfold sphereTopCap
  refine foldl_inv (fun (l : List Int) => l.length = ia.length) _ _ _ rfl ?_
  intro c i hc _
  rw [length_writeBlock, hc]

theorem length_sphereMiddle (vsegs hsegs : Int) (ia : List Int) :
    (sphereMiddle vsegs hsegs ia).length = ia.length := by
  unfold sphereMiddle
  refine foldl_inv (fun (l : List Int) => l.length = ia.length) _ _ _ rfl ?_
  intro c j hc _
  refine foldl_inv (fun (l : List Int) => l.length = ia.length) _ _ _ hc ?_
  intro d i hd _
  rw [length_writeBlock, hd]

theorem length_sphereBottomCap (vsegs hsegs nverts : Int) (ia : List Int) :
    (sphereBottomCap vsegs hsegs nverts ia).length = ia.length := by
  unfold sphereBottomCap
  refine foldl_inv (fun (l : List Int) => l.length = ia.length) _ _ _ rfl ?_
  intro c i hc _
  rw [length_writeBlock, hc]

theorem length_sphereVertexRings (sinF cosF : ℚ → ℚ) (piQ radius : ℚ)
    (vsegs hsegs : Int) (va : List ℚ) :
    (sphereVertexRings sinF cosF piQ radius vsegs hsegs va).length = va.length := by
  unfold sphereVertexRings
  refine foldl_inv (fun (l : List ℚ) => l.length = va.length) _ _ _ rfl ?_
  intro c j hc _
  refine foldl_inv (fun (l : List ℚ) => l.length = va.length) _ _ _ hc ?_
  intro d i hd _
  rw [length_writeBlock, hd]

/-- Claim C5: every mesh produced by the four generation operations
(single triangle, box, sphere, OBJ import) satisfies
`indexarray_.size() = 3 * ntris_` and `vertexarray_.size() = 8 * nverts_`,
whatever the previous mesh contents. -/
theorem generated_mesh_lengths (s : TriangleSoup) (x y z piQ radius : ℚ)
    (sinF cosF : ℚ → ℚ) (segments : Int) (lines : List ObjLine) :
    goodLengths (createTriangle s) ∧ goodLengths (createBox x y z s) ∧
    goodLengths (createSphere sinF cosF piQ radius segments s) ∧
    goodLengths (readOBJ (some lines) s) := by
  have hv2 : (2 : Int) ≤ max segments 2 := le_max_right _ _
  refine ⟨⟨?_, ?_⟩, ⟨?_, ?_⟩, ⟨?_, ?_⟩, ?_⟩
  · simp [createTriangle, length_writeBlock, length_resizeList]
  · simp [createTriangle, length_writeBlock, length_resizeList]
  · simp [createBox, length_writeBlock, length_resizeList]
  · simp [createBox, length_writeBlock, length_resizeList]
  · simp only [createSphere]
    rw [length_sphereBottomCap, length_sphereMiddle, length_sphereTopCap, length_resizeList]
    have hnt : (0 : Int) ≤ (max segments 2 * 2 + (max segments 2 - 2) * (max segments 2 * 2) * 2
        + max segments 2 * 2) * 3 := by
      nlinarith [mul_nonneg (mul_nonneg (by omega : (0:Int) ≤ max segments 2 - 2)
        (by omega : (0:Int) ≤ max segments 2 * 2)) (by norm_num : (0:Int) ≤ 2)]
    rw [Int.toNat_of_nonneg hnt]
    ring
  · simp only [createSphere]
    rw [length_sphereVertexRings, length_writeBlock, length_writeBlock, length_resizeList]
    have hnv : (0 : Int) ≤ (1 + (max segments 2 - 1) * (max segments 2 * 2 + 1) + 1) * 8 := by
      nlinarith [mul_nonneg (by omega : (0:Int) ≤ max segments 2 - 1)
        (by omega : (0:Int) ≤ max segments 2 * 2 + 1)]
    rw [Int.toNat_of_nonneg hnv]
    ring
  · by_cases herr : (objRun lines s).readerror = true
    · simp [readOBJ, herr, clean, goodLengths]
    · have herr' : (objRun lines s).readerror = false := by simpa using herr
      have hlen : (objRun lines s).vertexarray.length = 8 * (3 * numFaces lines) ∧
          (objRun lines s).indexarray.length = 3 * numFaces lines := by
        unfold objRun
        refine foldl_inv (fun (c : ReadState) =>
          c.vertexarray.length = 8 * (3 * numFaces lines) ∧
          c.indexarray.length = 3 * numFaces lines) _ _ _ ⟨?_, ?_⟩ ?_
        · simp [objInit, length_resizeList]
        · simp [objInit, length_resizeList]
        · intro c a hc _
          obtain ⟨h1, h2⟩ := hc
          have hl := objStep_lengths c a
          exact ⟨hl.2.2.2.1.trans h1, hl.2.2.2.2.trans h2⟩
      simp only [readOBJ, herr', if_false, Bool.false_eq_true]
      constructor
      · show ((objRun lines s).indexarray.length : Int) = 3 * ((numFaces lines : Nat) : Int)
        rw [hlen.2]
        push_cast
        ring
      · show ((objRun lines s).vertexarray.length : Int) = 8 * (((3 * numFaces lines : Nat)) : Int)
        rw [hlen.1]
        push_cast
        ring

end TNM046
